import Mathlib

/-!
Shallow embedding of the cargo-onefile pipeline (src/main.rs, src/args.rs).

Paths, file contents and the assembled output stream are modelled as
`List Char` (byte/character sequences).  Filesystem interaction is made
explicit: the parallel walker's deliveries become a `List DirEntry`
argument (the walker gives no ordering guarantee, so theorems quantify
over arbitrary delivery lists), per-entry metadata is an `Option EntryMeta`
field (`none` models a failed metadata fetch), and file reading becomes a
`Path → Option (List Char)` function (`none` models a read failure).
`std::fs::canonicalize` in the table-of-contents display falls back to the
path itself on failure; the model displays the path itself.
-/

namespace CargoOnefile

/-- A filesystem path, as its character sequence. -/
abbrev Path := List Char

/-- Number of `'\n'` characters in a character sequence. -/
def newlineCount (s : List Char) : Nat := s.count '\n'

/-- Rust `str::lines().count()`: number of newline-separated lines, with no
trailing empty line when the text ends in `'\n'`, and 0 for the empty text. -/
def rustLines (s : List Char) : Nat :=
  if s = [] then 0
  else newlineCount s + (if s.getLast? = some '\n' then 0 else 1)

/-- Path components: split on `'/'`, dropping empty components (mirrors how
Rust `Path::components` normalises separators for comparison purposes). -/
def components (p : Path) : List Path :=
  (p.splitOn '/').filter (fun c => c ≠ [])

/-- Rust `Path::file_name`: the last normal component. -/
def fileName (p : Path) : Option Path :=
  (components p).getLast?

/-- Rust `Path::ends_with`: whole trailing components must match. -/
def pathEndsWith (p suffixPat : Path) : Bool :=
  (components suffixPat).isSuffixOf (components p)

/-- Rust `Path::extension`: the part of the file name after the last `'.'`,
provided that dot is not the leading character of the file name. -/
def extensionOf (p : Path) : Option Path :=
  match fileName p with
  | none => none
  | some name =>
    match name.splitOn '.' with
    | [] => none
    | [_] => none
    | [[], _] => none
    | parts => parts.getLast?

/-- Metadata of a directory entry: byte length, and modification time as a
UTC timestamp (`none` when `metadata.modified()` fails). -/
structure EntryMeta where
  len : Nat
  modified : Option Int
deriving DecidableEq

/-- A directory entry delivered by the walker: its path, its depth below the
search root (reported by the walker, `ignore::DirEntry::depth`), and its
metadata (`none` when the metadata fetch fails). -/
structure DirEntry where
  path : Path
  depth : Nat
  meta : Option EntryMeta
deriving DecidableEq

/-- A loaded file: path plus content read from disk. -/
structure LoadedFile where
  path : Path
  content : List Char
deriving DecidableEq

instance : Inhabited LoadedFile := ⟨⟨[], []⟩⟩

/-- Rust `Option::is_some_and`. -/
def is_some_and {α : Type} (o : Option α) (p : α → Bool) : Bool :=
  match o with
  | some a => p a
  | none => false

/-- Size-bound gate of `filter_path` (src/main.rs:472-481): only consulted when
at least one size bound is configured; a failed metadata fetch rejects. -/
def sizeGate (smaller_than larger_than : Option Nat) (f : DirEntry) : Option Unit :=
  if smaller_than.isSome || larger_than.isSome then
    match f.meta with
    | none => none
    | some m =>
      if is_some_and smaller_than (fun st => m.len > st) then none
      else if is_some_and larger_than (fun lt => m.len < lt) then none
      else some ()
  else some ()

/-- Time-bound gate of `filter_path` (src/main.rs:483-492). -/
def timeGate (newer_than older_than : Option Int) (f : DirEntry) : Option Unit :=
  if older_than.isSome || newer_than.isSome then
    match f.meta with
    | none => none
    | some m =>
      match m.modified with
      | none => none
      | some md =>
        if is_some_and older_than (fun ot => md > ot) then none
        else if is_some_and newer_than (fun nt => md < nt) then none
        else some ()
  else some ()

/-- The filter predicate `filter_path` (src/main.rs:443-495).  Note the
`none` branch of the extension filter: when no allow-list was supplied it
rejects exactly the entries whose extension is `"rs"` (src/main.rs:462-464). -/
def filter_path (exclude : List Path) (extension : Option (List Path))
    (smaller_than larger_than : Option Nat)
    (newer_than older_than : Option Int) (f : DirEntry) : Option Path :=
  if (match extension with
      | some exts => !exts.any (fun extUser => extensionOf f.path == some extUser)
      | none => extensionOf f.path == some "rs".data) then
    none
  else if exclude.any (fun e => pathEndsWith f.path e) then
    none
  else
    match sizeGate smaller_than larger_than f with
    | none => none
    | some _ =>
      match timeGate newer_than older_than f with
      | none => none
      | some _ => some f.path

/-- Size-bound validation at the top of `main` (src/main.rs:197-201): bail
when `smaller_than > larger_than`. -/
def checkSizeBounds (smaller_than larger_than : Option Nat) : Except (List Char) Unit :=
  match smaller_than, larger_than with
  | some st, some lt =>
    if st > lt then Except.error "smaller_than cannot be larger than larger_than".data
    else Except.ok ()
  | _, _ => Except.ok ()

/-- Time-bound validation (src/main.rs:203-207): bail when
`newer_than > older_than`. -/
def checkTimeBounds (newer_than older_than : Option Int) : Except (List Char) Unit :=
  match newer_than, older_than with
  | some nt, some ot =>
    if nt > ot then Except.error "newer_than cannot be older than older_than".data
    else Except.ok ()
  | _, _ => Except.ok ()

/-- Candidate collection of the live run (src/main.rs:267-298): every entry
the parallel walker delivers is passed through `filter_path` and accepted
paths are gathered.  The `WalkBuilder` is constructed with the search roots
and `standard_filters` only — no `max_depth` is ever set, so the entry's
depth plays no part here. -/
def collectCandidates (exclude : List Path) (extension : Option (List Path))
    (smaller_than larger_than : Option Nat)
    (newer_than older_than : Option Int) (entries : List DirEntry) : List Path :=
  entries.filterMap (filter_path exclude extension smaller_than larger_than newer_than older_than)

/-- `max_files` truncation (src/main.rs:318-327): applied to the collected
list in walker-arrival order, before any read or sort. -/
def truncateFiles (max_files : Option Nat) (paths : List Path) : List Path :=
  match max_files with
  | none => paths
  | some m => if paths.length > m then paths.take m else paths

/-- Parallel file loading (src/main.rs:330-339): read each path, dropping
entries whose read fails. -/
def readFiles (readFn : Path → Option (List Char)) (paths : List Path) : List LoadedFile :=
  paths.filterMap (fun p => (readFn p).map (fun c => LoadedFile.mk p c))

/-- Sorting by path (src/main.rs:342): a stable sort keyed on the path
(`par_sort_by_cached_key(|(a, _)| a.clone())`, keyed on `PathBuf`).
`PathBuf`'s `Ord` compares the `components()` iterators lexicographically,
each normal component by its bytes — so a component boundary sorts before
any byte and `src/foo/bar.rs` orders before `src/foo.rs`. -/
def sortFiles (files : List LoadedFile) : List LoadedFile :=
  List.insertionSort (fun a b => components a.path ≤ components b.path) files

/-- The sorted file list a run assembles from the walker's deliveries:
collect, truncate, read, sort (src/main.rs:267-342). -/
def runOutput (exclude : List Path) (extension : Option (List Path))
    (smaller_than larger_than : Option Nat)
    (newer_than older_than : Option Int) (max_files : Option Nat)
    (readFn : Path → Option (List Char)) (entries : List DirEntry) : List LoadedFile :=
  sortFiles (readFiles readFn (truncateFiles max_files
    (collectCandidates exclude extension smaller_than larger_than newer_than older_than entries)))

/-- Length of the table-of-contents offset used by the prediction
(src/main.rs:349): file count, plus 5, plus the header's **byte** length. -/
def tocLen (head : Option (List Char)) (files : List LoadedFile) : Nat :=
  files.length + 5 + (match head with | some h => h.length | none => 0)

/-- The table-of-contents loop (src/main.rs:350-364): walks the sorted files,
reporting `curr_line + toc_len` for each file and advancing `curr_line` by
the file's content line count plus two. -/
def tocEntriesAux (tl : Nat) (curr : Nat) : List LoadedFile → List (Nat × Path)
  | [] => []
  | f :: fs => (curr + tl, f.path) :: tocEntriesAux tl (curr + rustLines f.content + 2) fs

/-- The line numbers the table of contents reports, in file order. -/
def tocReported (head : Option (List Char)) (files : List LoadedFile) : List Nat :=
  (tocEntriesAux (tocLen head files) 0 files).map Prod.fst

/-- Decimal digit characters, as produced by `format!`. -/
def digitChar (n : Nat) : Char :=
  match n with
  | 0 => '0' | 1 => '1' | 2 => '2' | 3 => '3' | 4 => '4'
  | 5 => '5' | 6 => '6' | 7 => '7' | 8 => '8' | _ => '9'

/-- Decimal rendering of a natural number (fuelled division loop). -/
def natDigitsAux : Nat → Nat → List Char → List Char
  | 0, _, acc => acc
  | fuel + 1, n, acc =>
    if n < 10 then digitChar n :: acc
    else natDigitsAux fuel (n / 10) (digitChar (n % 10) :: acc)

/-- Decimal rendering of a natural number, mirroring `format!("{}", n)`. -/
def natChars (n : Nat) : List Char := natDigitsAux (n + 1) n []

/-- Fixed first two lines of the table of contents (src/main.rs:351). -/
def tocHeader : List Char := "// Table of Contents\n// ==================\n".data

/-- Fixed closing line of the table of contents (src/main.rs:365). -/
def tocFooter : List Char := "// ==================\n".data

/-- One table-of-contents entry line (src/main.rs:358-362). -/
def tocEntryText (ln : Nat) (p : Path) : List Char :=
  "// Ln".data ++ natChars ln ++ " : ".data ++ p ++ ['\n']

/-- The full table-of-contents text (src/main.rs:348-366). -/
def tocText (head : Option (List Char)) (files : List LoadedFile) : List Char :=
  tocHeader ++
    ((tocEntriesAux (tocLen head files) 0 files).map
      (fun e => tocEntryText e.1 e.2)).flatten ++
  tocFooter

/-- One emitted file block (src/main.rs:400-402):
`writeln!(output, "{} {}\n{}", separator, file.display(), content)` writes
the separator line, then the content, then one `'\n'`. -/
def fileBlock (sep : Path) (f : LoadedFile) : List Char :=
  sep ++ ' ' :: f.path ++ '\n' :: f.content ++ ['\n']

/-- The bytes emitted before file block `i` when the table of contents is
requested: optional header plus `'\n'` (`writeln!` of the header), the table
of contents plus `'\n'`, and the first `i` file blocks (src/main.rs:392-403). -/
def bytesBeforeBlock (sep : Path) (head : Option (List Char))
    (files : List LoadedFile) (i : Nat) : List Char :=
  (match head with | some h => h ++ ['\n'] | none => []) ++
  (tocText head files ++ ['\n']) ++
  ((files.take i).map (fileBlock sep)).flatten

/-- The final byte stream when the table of contents is requested. -/
def outputBytes (sep : Path) (head : Option (List Char))
    (files : List LoadedFile) : List Char :=
  (match head with | some h => h ++ ['\n'] | none => []) ++
  (tocText head files ++ ['\n']) ++
  (files.map (fileBlock sep)).flatten

/-- The 1-based line number at which byte position `pos` of stream `s`
lies: one more than the number of newlines strictly before it. -/
def lineAt (s : List Char) (pos : Nat) : Nat :=
  1 + newlineCount (s.take pos)

/-- The actual 1-based line numbers of the separator lines in the final byte
stream, in file order: each block starts right after the bytes that precede
it. -/
def actualSepLines (sep : Path) (head : Option (List Char))
    (files : List LoadedFile) : List Nat :=
  (List.range files.length).map
    (fun i => lineAt (outputBytes sep head files) (bytesBeforeBlock sep head files i).length)

/-- Outcome of a run after validation. -/
inductive MainOutcome where
  | noFiles : MainOutcome
  | wrote : List Char → MainOutcome
deriving DecidableEq

/-- The run skeleton of `main` (src/main.rs:175-406): bound validation, then
collection; an empty collection prints a diagnostic and returns `Ok(())`
(src/main.rs:313-316); otherwise truncate, read, sort and emit the stream
with the table of contents. -/
def runMain (sep : Path) (head : Option (List Char))
    (exclude : List Path) (extension : Option (List Path))
    (smaller_than larger_than : Option Nat)
    (newer_than older_than : Option Int) (max_files : Option Nat)
    (readFn : Path → Option (List Char)) (entries : List DirEntry) :
    Except (List Char) MainOutcome :=
  match checkSizeBounds smaller_than larger_than with
  | Except.error e => Except.error e
  | Except.ok _ =>
    match checkTimeBounds newer_than older_than with
    | Except.error e => Except.error e
    | Except.ok _ =>
      let collected := collectCandidates exclude extension smaller_than larger_than
        newer_than older_than entries
      if collected = [] then Except.ok MainOutcome.noFiles
      else
        let files := sortFiles (readFiles readFn (truncateFiles max_files collected))
        Except.ok (MainOutcome.wrote (outputBytes sep head files))

/-- The dependency-lock file name (spec: "the dependency-lock file name"). -/
def lockFileName : Path := "Cargo.lock".data

/-- Modelled from the spec: the lock-file exclusion step of the filter
predicate.  `OnefileArgs.include_lock` is declared in src/args.rs:173-177
(default `false`) but the revision of the filter that consumes it is not
present under src/ (src/main.rs does not use src/args.rs).  Spec §4.1:
"Lock-file exclusion: reject if the exact file name matches the
dependency-lock file name, unless an override flag keeps it." -/
def filterWithLock (include_lock : Bool) (exclude : List Path)
    (extension : Option (List Path)) (smaller_than larger_than : Option Nat)
    (newer_than older_than : Option Int) (f : DirEntry) : Option Path :=
  if !include_lock && (fileName f.path == some lockFileName) then none
  else filter_path exclude extension smaller_than larger_than newer_than older_than f

/-- Candidate collection with the spec-modelled lock-file exclusion step. -/
def collectWithLock (include_lock : Bool) (exclude : List Path)
    (extension : Option (List Path)) (smaller_than larger_than : Option Nat)
    (newer_than older_than : Option Int) (entries : List DirEntry) : List Path :=
  entries.filterMap
    (filterWithLock include_lock exclude extension smaller_than larger_than newer_than older_than)

/-- The sorted file list of a run using the spec-modelled lock-aware filter. -/
def runOutputWithLock (include_lock : Bool) (exclude : List Path)
    (extension : Option (List Path)) (smaller_than larger_than : Option Nat)
    (newer_than older_than : Option Int) (max_files : Option Nat)
    (readFn : Path → Option (List Char)) (entries : List DirEntry) : List LoadedFile :=
  sortFiles (readFiles readFn (truncateFiles max_files
    (collectWithLock include_lock exclude extension smaller_than larger_than
      newer_than older_than entries)))

/-! Helper lemmas about the pipeline stages. -/

theorem filterMap_sublist_map {α β : Type} (f : α → Option β) (g : α → β)
    (hf : ∀ a b, f a = some b → b = g a) (l : List α) :
    (l.filterMap f).Sublist (l.map g) := by
  induction l with
  | nil => simp
  | cons a l ih =>
    rw [List.filterMap_cons, List.map_cons]
    cases hfa : f a with
    | none => exact ih.cons (g a)
    | some b => rw [hf a b hfa]; exact ih.cons₂ (g a)

theorem filter_path_eq_some {exclude : List Path} {extension : Option (List Path)}
    {smaller_than larger_than : Option Nat} {newer_than older_than : Option Int}
    {f : DirEntry} {p : Path}
    (h : filter_path exclude extension smaller_than larger_than newer_than older_than f
      = some p) :
    p = f.path := by
  unfold filter_path at h
  split at h
  · exact Option.noConfusion h
  · split at h
    · exact Option.noConfusion h
    · split at h
      · exact Option.noConfusion h
      · split at h
        · exact Option.noConfusion h
        · exact (Option.some.inj h).symm

theorem filter_path_some_ext {exclude : List Path} {exts : List Path}
    {smaller_than larger_than : Option Nat} {newer_than older_than : Option Int}
    {f : DirEntry} {p : Path}
    (h : filter_path exclude (some exts) smaller_than larger_than newer_than older_than f
      = some p) :
    ∃ e ∈ exts, extensionOf p = some e := by
  cases hany : exts.any (fun extUser => extensionOf f.path == some extUser) with
  | false =>
    exfalso
    unfold filter_path at h
    simp [hany] at h
  | true =>
    rcases List.any_eq_true.mp hany with ⟨e, he, hbeq⟩
    exact ⟨e, he, by rw [filter_path_eq_some h]; exact eq_of_beq hbeq⟩

theorem mem_truncateFiles {max_files : Option Nat} {ps : List Path} {p : Path}
    (h : p ∈ truncateFiles max_files ps) : p ∈ ps := by
  unfold truncateFiles at h
  split at h
  · exact h
  · split at h
    · exact List.take_subset _ _ h
    · exact h

theorem truncateFiles_sublist (max_files : Option Nat) (ps : List Path) :
    (truncateFiles max_files ps).Sublist ps := by
  unfold truncateFiles
  split
  · exact List.Sublist.refl ps
  · split
    · exact List.take_sublist _ _
    · exact List.Sublist.refl ps

theorem mem_readFiles {readFn : Path → Option (List Char)} {ps : List Path} {lf : LoadedFile}
    (h : lf ∈ readFiles readFn ps) : lf.path ∈ ps ∧ readFn lf.path = some lf.content := by
  unfold readFiles at h
  rcases List.mem_filterMap.mp h with ⟨p, hp, hsome⟩
  rcases Option.map_eq_some'.mp hsome with ⟨c, hc, hlf⟩
  subst hlf
  exact ⟨hp, hc⟩

theorem readFiles_map_path_sublist (readFn : Path → Option (List Char)) (ps : List Path) :
    ((readFiles readFn ps).map LoadedFile.path).Sublist ps := by
  unfold readFiles
  rw [List.map_filterMap]
  have hf : ∀ p q,
      Option.map LoadedFile.path (Option.map (fun c => LoadedFile.mk p c) (readFn p))
        = some q → q = id p := by
    intro p q hq
    cases hrp : readFn p with
    | none => rw [hrp] at hq; exact Option.noConfusion hq
    | some c => rw [hrp] at hq; exact (Option.some.inj hq).symm
  have h := filterMap_sublist_map _ id hf ps
  rw [List.map_id] at h
  exact h

theorem collectCandidates_sublist (exclude : List Path) (extension : Option (List Path))
    (smaller_than larger_than : Option Nat) (newer_than older_than : Option Int)
    (entries : List DirEntry) :
    (collectCandidates exclude extension smaller_than larger_than newer_than older_than
      entries).Sublist (entries.map DirEntry.path) := by
  unfold collectCandidates
  exact filterMap_sublist_map _ DirEntry.path (fun e p hp => filter_path_eq_some hp) entries

theorem mem_runOutput {exclude : List Path} {extension : Option (List Path)}
    {smaller_than larger_than : Option Nat} {newer_than older_than : Option Int}
    {max_files : Option Nat} {readFn : Path → Option (List Char)} {entries : List DirEntry}
    {lf : LoadedFile}
    (h : lf ∈ runOutput exclude extension smaller_than larger_than newer_than older_than
      max_files readFn entries) :
    ∃ e ∈ entries,
      filter_path exclude extension smaller_than larger_than newer_than older_than e
        = some lf.path := by
  unfold runOutput sortFiles at h
  have h1 := (List.perm_insertionSort
    (fun a b : LoadedFile => components a.path ≤ components b.path) _).mem_iff.mp h
  have h2 := (mem_readFiles h1).1
  have h3 := mem_truncateFiles h2
  unfold collectCandidates at h3
  exact List.mem_filterMap.mp h3

theorem mem_runOutputWithLock {include_lock : Bool} {exclude : List Path}
    {extension : Option (List Path)} {smaller_than larger_than : Option Nat}
    {newer_than older_than : Option Int} {max_files : Option Nat}
    {readFn : Path → Option (List Char)} {entries : List DirEntry} {lf : LoadedFile}
    (h : lf ∈ runOutputWithLock include_lock exclude extension smaller_than larger_than
      newer_than older_than max_files readFn entries) :
    ∃ e ∈ entries,
      filterWithLock include_lock exclude extension smaller_than larger_than
        newer_than older_than e = some lf.path := by
  unfold runOutputWithLock sortFiles at h
  have h1 := (List.perm_insertionSort
    (fun a b : LoadedFile => components a.path ≤ components b.path) _).mem_iff.mp h
  have h2 := (mem_readFiles h1).1
  have h3 := mem_truncateFiles h2
  unfold collectWithLock at h3
  exact List.mem_filterMap.mp h3

theorem filterWithLock_false_no_lock {exclude : List Path} {extension : Option (List Path)}
    {smaller_than larger_than : Option Nat} {newer_than older_than : Option Int}
    {f : DirEntry} {p : Path}
    (h : filterWithLock false exclude extension smaller_than larger_than newer_than older_than f
      = some p) :
    fileName p ≠ some lockFileName := by
  unfold filterWithLock at h
  split at h
  · exact Option.noConfusion h
  · rename_i hcond
    have hp := filter_path_eq_some h
    subst hp
    intro hlock
    exact hcond (by simp [hlock])

instance : IsTotal LoadedFile (fun a b => components a.path ≤ components b.path) :=
  ⟨fun a b => le_total (components a.path) (components b.path)⟩

instance : IsTrans LoadedFile (fun a b => components a.path ≤ components b.path) :=
  ⟨fun _ _ _ h1 h2 => le_trans h1 h2⟩

theorem sorted_pipeline_strict (max_files : Option Nat) (readFn : Path → Option (List Char))
    (cands : List Path) (h : (cands.map components).Nodup) :
    List.Pairwise (fun p q : Path => components p < components q)
      ((sortFiles (readFiles readFn (truncateFiles max_files cands))).map LoadedFile.path) := by
  have htrunc : ((truncateFiles max_files cands).map components).Nodup :=
    ((truncateFiles_sublist max_files cands).map components).nodup h
  have hread : (((readFiles readFn (truncateFiles max_files cands)).map
      LoadedFile.path).map components).Nodup :=
    ((readFiles_map_path_sublist readFn (truncateFiles max_files cands)).map
      components).nodup htrunc
  have hperm := List.perm_insertionSort
    (fun a b : LoadedFile => components a.path ≤ components b.path)
    (readFiles readFn (truncateFiles max_files cands))
  have hnd : (((sortFiles (readFiles readFn (truncateFiles max_files cands))).map
      LoadedFile.path).map components).Nodup :=
    (((hperm.map LoadedFile.path).map components).nodup_iff).mpr hread
  have hsorted := List.sorted_insertionSort
    (fun a b : LoadedFile => components a.path ≤ components b.path)
    (readFiles readFn (truncateFiles max_files cands))
  have hle : List.Pairwise (fun p q : Path => components p ≤ components q)
      ((sortFiles (readFiles readFn (truncateFiles max_files cands))).map LoadedFile.path) :=
    List.pairwise_map.mpr hsorted
  have hnd' : List.Pairwise (fun a b => a ≠ b)
      (((sortFiles (readFiles readFn (truncateFiles max_files cands))).map
        LoadedFile.path).map components) := hnd
  have hne : List.Pairwise (fun p q : Path => components p ≠ components q)
      ((sortFiles (readFiles readFn (truncateFiles max_files cands))).map LoadedFile.path) :=
    List.pairwise_map.mp hnd'
  exact (hle.and hne).imp (fun hpq => lt_of_le_of_ne hpq.1 hpq.2)

theorem tocEntriesAux_delta (tl : Nat) (fs : List LoadedFile) :
    ∀ (curr i : Nat), i + 1 < fs.length →
      ((tocEntriesAux tl curr fs).map Prod.fst).getD (i + 1) 0 =
        ((tocEntriesAux tl curr fs).map Prod.fst).getD i 0 +
          rustLines (fs.getD i default).content + 2 := by
  induction fs with
  | nil => intro curr i h; simp at h
  | cons f fs ih =>
    intro curr i h
    cases i with
    | zero =>
      cases fs with
      | nil => simp at h
      | cons g fs' =>
        simp [tocEntriesAux]
        omega
    | succ j =>
      have h' : j + 1 < fs.length := by simpa using h
      simpa [tocEntriesAux] using ih (curr + rustLines f.content + 2) j h'

/-! The claims. -/

/-- C1: the claim says that with no extension allow-list supplied the default
allow-list is `["rs"]`, so the filter accepts exactly the entries with
extension `"rs"`.  The code does the opposite (src/main.rs:462-464,
contradicting the field's own doc comment "Defaults to \"rs\""): with
`extension = none` it rejects `src/main.rs` and accepts `README.md`. -/
theorem default_extension_filter_inverted :
    filter_path [] none none none none none (DirEntry.mk "src/main.rs".data 1 none) = none ∧
    filter_path [] none none none none none (DirEntry.mk "README.md".data 1 none) =
      some "README.md".data := by
  constructor
  · rfl
  · rfl

/-- C2: the claim says every reported table-of-contents line number equals the
actual line number of that file's separator line, for any header content.  The
code seeds the offset with the header's byte length (src/main.rs:349): with a
two-byte one-line header "ab" and the single file `a.rs` (content "x\n"), the
table of contents reports line 8 but the separator actually appears on line 7
of the final byte stream. -/
theorem toc_line_number_wrong_with_header :
    tocReported (some "ab".data) [LoadedFile.mk "a.rs".data "x\n".data] = [8] ∧
    actualSepLines "//".data (some "ab".data) [LoadedFile.mk "a.rs".data "x\n".data] = [7] := by
  constructor
  · rfl
  · rfl

/-- C3: the claim says `max_files` truncation happens after the deterministic
sort, keeping the N lexicographically smallest paths.  The code truncates the
arrival-ordered list before sorting (src/main.rs:318-327 precedes the sort at
src/main.rs:342): when the walker delivers `b.rs` before `a.rs` and
`max_files = 1`, the retained file is `b.rs` although `a.rs` is smaller. -/
theorem truncation_applied_before_sort :
    (runOutput [] (some ["rs".data]) none none none none (some 1) (fun p => some p)
      [DirEntry.mk "b.rs".data 1 none, DirEntry.mk "a.rs".data 1 none]).map LoadedFile.path
      = ["b.rs".data] ∧
    "a.rs".data < "b.rs".data := by
  constructor
  · rfl
  · decide

/-- C4: the claim says a configuration with minimum (`larger_than`) 100 and
maximum (`smaller_than`) 50 fails construction.  The validation at
src/main.rs:197-201 bails only when `smaller_than > larger_than`, which given
the filter's semantics (src/main.rs:472-481: `smaller_than` is the upper size
bound, `larger_than` the lower) is exactly the CONSISTENT configuration: the
inconsistent min=100/max=50 passes validation (and then rejects every file,
e.g. one of 70 bytes), while the consistent min=50/max=100 is rejected. -/
theorem size_bounds_validation_inverted :
    checkSizeBounds (some 50) (some 100) = Except.ok () ∧
    checkSizeBounds (some 100) (some 50) =
      Except.error "smaller_than cannot be larger than larger_than".data ∧
    sizeGate (some 50) (some 100) (DirEntry.mk "a.rs".data 1 (some (EntryMeta.mk 70 none)))
      = none ∧
    sizeGate (some 100) (some 50) (DirEntry.mk "a.rs".data 1 (some (EntryMeta.mk 70 none)))
      = some () := by
  refine ⟨rfl, rfl, rfl, rfl⟩

/-- C5 counterexample: the claim says no path is emitted twice even when two
search roots overlap so the same file is delivered from both.  The code never
deduplicates: when the walker delivers the same path twice, the sorted output
contains two blocks for it and is not strictly ascending. -/
theorem overlapping_roots_double_emit :
    (runOutput [] (some ["rs".data]) none none none none none (fun p => some p)
      [DirEntry.mk "a.rs".data 1 none, DirEntry.mk "a.rs".data 2 none]).map LoadedFile.path
      = ["a.rs".data, "a.rs".data] ∧
    ¬ List.Pairwise (fun p q : Path => p < q)
      ((runOutput [] (some ["rs".data]) none none none none none (fun p => some p)
        [DirEntry.mk "a.rs".data 1 none, DirEntry.mk "a.rs".data 2 none]).map
          LoadedFile.path) := by
  constructor
  · rfl
  · decide

/-- C5 (amended): the emitted file blocks are sorted by `PathBuf`'s
componentwise path order (component lists lexicographically, each component
by its bytes — not flat byte-wise order: `src/foo/bar.rs` sorts before
`src/foo.rs`), and the sequence is strictly ascending in that order (no path
twice) provided the traversal delivers each normalized path at most once;
the repository code performs no deduplication, so overlapping roots that
deliver a path twice produce two blocks for it. -/
theorem output_strictly_ascending_without_duplicate_delivery
    (exclude : List Path) (extension : Option (List Path))
    (smaller_than larger_than : Option Nat) (newer_than older_than : Option Int)
    (max_files : Option Nat) (readFn : Path → Option (List Char)) (entries : List DirEntry)
    (h : (entries.map (fun e => components e.path)).Nodup) :
    List.Pairwise (fun p q : Path => components p < components q)
      ((runOutput exclude extension smaller_than larger_than newer_than older_than
        max_files readFn entries).map LoadedFile.path) := by
  have hsub := (collectCandidates_sublist exclude extension smaller_than larger_than
    newer_than older_than entries).map components
  rw [List.map_map] at hsub
  exact sorted_pipeline_strict max_files readFn _ (hsub.nodup h)

/-- C5 witness: a run on the delivery `src/foo.rs`, `src/foo/bar.rs` (distinct
normalized paths) yields output strictly ascending in componentwise order —
concretely `src/foo/bar.rs` before `src/foo.rs`, the order `PathBuf`'s `Ord`
produces and the reverse of flat byte-wise order. -/
theorem output_strictly_ascending_without_duplicate_delivery_witness :
    (([DirEntry.mk "src/foo.rs".data 1 none,
       DirEntry.mk "src/foo/bar.rs".data 1 none].map
      (fun e => components e.path)).Nodup) ∧
    (runOutput [] (some ["rs".data]) none none none none none (fun p => some p)
      [DirEntry.mk "src/foo.rs".data 1 none,
       DirEntry.mk "src/foo/bar.rs".data 1 none]).map LoadedFile.path
      = ["src/foo/bar.rs".data, "src/foo.rs".data] ∧
    List.Pairwise (fun p q : Path => components p < components q)
      ((runOutput [] (some ["rs".data]) none none none none none (fun p => some p)
        [DirEntry.mk "src/foo.rs".data 1 none,
         DirEntry.mk "src/foo/bar.rs".data 1 none]).map LoadedFile.path) :=
  ⟨by decide, by decide,
    output_strictly_ascending_without_duplicate_delivery [] (some ["rs".data]) none none
      none none none (fun p => some p)
      [DirEntry.mk "src/foo.rs".data 1 none,
       DirEntry.mk "src/foo/bar.rs".data 1 none] (by decide)⟩

/-- Default value of the `depth` argument (src/main.rs:72-73). -/
def defaultDepth : Nat := 10

/-- C6: the claim says no entry deeper than the configured depth is emitted.
The live run builds its `WalkBuilder` without ever calling `max_depth`
(src/main.rs:267-296) and `filter_path` never consults the entry's depth, so
an entry at depth 12 — deeper than the default limit of 10 — is emitted into
the candidate set.  (The only depth handling in the source, the `take_while`
in `walk_path` at src/main.rs:428, belongs to a function nothing calls.) -/
theorem depth_limit_not_enforced :
    (DirEntry.mk "a/b/c/d/e/f/g/h/i/j/k/deep.rs".data 12 none).depth > defaultDepth ∧
    collectCandidates [] (some ["rs".data]) none none none none
      [DirEntry.mk "a/b/c/d/e/f/g/h/i/j/k/deep.rs".data 12 none]
      = ["a/b/c/d/e/f/g/h/i/j/k/deep.rs".data] := by
  constructor
  · decide
  · rfl

/-- C7: with lock-file inclusion disabled, no file in the run's output has the
dependency-lock file name `Cargo.lock`, whatever the extension allow-list and
the other filters are.  (The lock-file step is modelled from the spec, as the
consumer of `OnefileArgs.include_lock` is absent from src/.) -/
theorem no_lock_file_in_output (exclude : List Path) (extension : Option (List Path))
    (smaller_than larger_than : Option Nat) (newer_than older_than : Option Int)
    (max_files : Option Nat) (readFn : Path → Option (List Char)) (entries : List DirEntry)
    (lf : LoadedFile)
    (h : lf ∈ runOutputWithLock false exclude extension smaller_than larger_than
      newer_than older_than max_files readFn entries) :
    fileName lf.path ≠ some lockFileName := by
  rcases mem_runOutputWithLock h with ⟨e, _, hsome⟩
  exact filterWithLock_false_no_lock hsome

/-- C7 witness: a run over a delivery containing `Cargo.lock` (whose extension
"lock" is even on the allow-list) outputs only `a.lock`, and the theorem
applies to that member. -/
theorem no_lock_file_in_output_witness :
    (LoadedFile.mk "a.lock".data "a.lock".data) ∈
      runOutputWithLock false [] (some ["lock".data]) none none none none none
        (fun p => some p)
        [DirEntry.mk "Cargo.lock".data 1 none, DirEntry.mk "a.lock".data 1 none] ∧
    fileName (LoadedFile.mk "a.lock".data "a.lock".data).path ≠ some lockFileName :=
  ⟨by decide,
    no_lock_file_in_output [] (some ["lock".data]) none none none none none
      (fun p => some p)
      [DirEntry.mk "Cargo.lock".data 1 none, DirEntry.mk "a.lock".data 1 none]
      (LoadedFile.mk "a.lock".data "a.lock".data) (by decide)⟩

/-- C8 counterexample: the claim says a run that finds zero files aborts with
a failing exit; the code prints a diagnostic and returns `Ok(())`
(src/main.rs:313-316), a successful completion. -/
theorem zero_files_success_outcome :
    runMain "//".data none [] none none none none none none (fun p => some p) [] =
      Except.ok MainOutcome.noFiles := by
  rfl

/-- C8 (amended): if the bound validations pass and zero files are collected,
the run terminates early with a successful outcome (it prints a diagnostic and
returns `Ok(())`), producing no output. -/
theorem zero_files_found_returns_success (sep : Path) (head : Option (List Char))
    (exclude : List Path) (extension : Option (List Path))
    (smaller_than larger_than : Option Nat) (newer_than older_than : Option Int)
    (max_files : Option Nat) (readFn : Path → Option (List Char)) (entries : List DirEntry)
    (hs : checkSizeBounds smaller_than larger_than = Except.ok ())
    (ht : checkTimeBounds newer_than older_than = Except.ok ())
    (hempty : collectCandidates exclude extension smaller_than larger_than newer_than
      older_than entries = []) :
    runMain sep head exclude extension smaller_than larger_than newer_than older_than
      max_files readFn entries = Except.ok MainOutcome.noFiles := by
  unfold runMain
  rw [hs, ht]
  simp [hempty]

/-- C8 witness: a concrete run with no deliveries passes validation, collects
nothing, and completes successfully. -/
theorem zero_files_found_returns_success_witness :
    checkSizeBounds none none = Except.ok () ∧
    checkTimeBounds none none = Except.ok () ∧
    collectCandidates [] none none none none none [] = [] ∧
    runMain "x".data none [] none none none none none none (fun _ => none) [] =
      Except.ok MainOutcome.noFiles :=
  ⟨rfl, rfl, rfl,
    zero_files_found_returns_success "x".data none [] none none none none none none
      (fun _ => none) [] rfl rfl rfl⟩

/-- C9: in the table of contents, the line number reported for entry i+1
exceeds the one reported for entry i by exactly the content line count of
file i plus two (src/main.rs:352-364). -/
theorem toc_consecutive_line_delta (head : Option (List Char)) (files : List LoadedFile)
    (i : Nat) (h : i + 1 < files.length) :
    (tocReported head files).getD (i + 1) 0 =
      (tocReported head files).getD i 0 + rustLines (files.getD i default).content + 2 :=
  tocEntriesAux_delta (tocLen head files) files 0 i h

/-- The spec's concrete scenario: `a.rs` with 10 content lines followed by
`sub/b.rs` with 5 content lines. -/
def scenarioFiles : List LoadedFile :=
  [LoadedFile.mk "a.rs".data "1\n2\n3\n4\n5\n6\n7\n8\n9\n10\n".data,
   LoadedFile.mk "sub/b.rs".data "1\n2\n3\n4\n5\n".data]

/-- C9 witness: for the scenario of a 10-line `a.rs` followed by a 5-line
`sub/b.rs`, the two reported line numbers differ by 12. -/
theorem toc_consecutive_line_delta_witness :
    0 + 1 < scenarioFiles.length ∧
    (tocReported none scenarioFiles).getD (0 + 1) 0 =
      (tocReported none scenarioFiles).getD 0 0 +
        rustLines (scenarioFiles.getD 0 default).content + 2 ∧
    (tocReported none scenarioFiles).getD 1 0 =
      (tocReported none scenarioFiles).getD 0 0 + 12 :=
  ⟨by decide, toc_consecutive_line_delta none scenarioFiles 0 (by decide), by decide⟩

/-- C10: explicit inclusion does not bypass the filter: include paths become
walker roots (src/main.rs:211-220, 267-270) and every delivered entry passes
through `filter_path` (src/main.rs:283-291), so when an extension allow-list
is configured, no path whose extension is outside the allow-list ever appears
in the output. -/
theorem explicit_include_cannot_bypass_extension_filter
    (exclude : List Path) (exts : List Path)
    (smaller_than larger_than : Option Nat) (newer_than older_than : Option Int)
    (max_files : Option Nat) (readFn : Path → Option (List Char)) (entries : List DirEntry)
    (p : Path) (hp : ∀ e ∈ exts, extensionOf p ≠ some e)
    (lf : LoadedFile)
    (h : lf ∈ runOutput exclude (some exts) smaller_than larger_than newer_than older_than
      max_files readFn entries) :
    lf.path ≠ p := by
  rcases mem_runOutput h with ⟨e, _, hsome⟩
  rcases filter_path_some_ext hsome with ⟨ext, hext, hpe⟩
  intro hlp
  exact hp ext hext (hlp ▸ hpe)

/-- C10 witness: with allow-list `["rs"]`, a delivery containing the
explicitly included `notes.txt` (extension "txt") yields an output whose only
member `a.rs` is not `notes.txt`, by the theorem. -/
theorem explicit_include_cannot_bypass_extension_filter_witness :
    (∀ e ∈ ["rs".data], extensionOf "notes.txt".data ≠ some e) ∧
    (LoadedFile.mk "a.rs".data "a.rs".data) ∈
      runOutput [] (some ["rs".data]) none none none none none (fun p => some p)
        [DirEntry.mk "notes.txt".data 1 none, DirEntry.mk "a.rs".data 1 none] ∧
    (LoadedFile.mk "a.rs".data "a.rs".data).path ≠ "notes.txt".data :=
  ⟨by decide, by decide,
    explicit_include_cannot_bypass_extension_filter [] ["rs".data] none none none none
      none (fun p => some p)
      [DirEntry.mk "notes.txt".data 1 none, DirEntry.mk "a.rs".data 1 none]
      "notes.txt".data (by decide)
      (LoadedFile.mk "a.rs".data "a.rs".data) (by decide)⟩

end CargoOnefile
